import Mathlib

/-!
Shallow embedding of the IP-UCD Industry Pack driver header (`ip-ucd.h`).

The hardware is modelled as an explicit record of register values
(`HWState`); every driver operation is a pure function on that record that
additionally returns the list of bus transactions (`Event`) it performed, in
order.  C++ exceptions become an `Except`-style result carried next to the
trace, so that the transactions performed *before* a throw stay visible.
Machine integers are `Nat` with explicit `% 2 ^ w` truncation at the points
where the C++ types truncate.
-/

namespace IPUCD

/-- `FifoEntry::NO_VALUE = 0xffffffff`, the reserved "no entry" pattern. -/
def NO_VALUE : Nat := 0xffffffff

/-- An entry in the FIFO: a single 32-bit word (`uint32_t const value`). -/
structure FifoEntry where
  value : Nat
deriving DecidableEq, Repr

/-- The explicit constructor `FifoEntry(uint32_t v)`; the argument is a
`uint32_t`, hence the truncation at the call boundary. -/
def FifoEntry.ofWord (v : Nat) : FifoEntry := ⟨v % 2 ^ 32⟩

/-- The default constructor `FifoEntry()`, i.e. `FifoEntry(NO_VALUE)`. -/
def FifoEntry.noValue : FifoEntry := FifoEntry.ofWord NO_VALUE

/-- `FifoEntry::event() = uint8_t(value)` — truncation to 8 bits. -/
def FifoEntry.event (e : FifoEntry) : Nat := e.value % 2 ^ 8

/-- `FifoEntry::stamp() = value >> 8`. -/
def FifoEntry.stamp (e : FifoEntry) : Nat := e.value >>> 8

/-- `FifoEntry::isValid() = (value != NO_VALUE)`. -/
def FifoEntry.isValid (e : FifoEntry) : Bool := e.value != NO_VALUE

/-- `ControlCommand::SW_Reset = 0xff`. -/
def SW_Reset : Nat := 0xff

/-- `ControlCommand::EnableTCLK = 0x1`. -/
def EnableTCLK : Nat := 0x1

/-- `Status::FIFOEmpty = 0x0100`. -/
def FIFOEmpty : Nat := 0x0100

/-- The expected module identity read from the PROM (`0xbb15`). -/
def MODULE_ID : Nat := 0xbb15

/-- One bus transaction performed by the driver, tagged by register. -/
inductive Event where
  /-- Read of a PROM byte (offset, value). -/
  | readProm (offset value : Nat)
  /-- Non-destructive read of the status register. -/
  | readStatus (value : Nat)
  /-- Read of trigger-map entry `index`. -/
  | readTrigger (index value : Nat)
  /-- Write to the control register. -/
  | writeControl (value : Nat)
  /-- Write to the status register. -/
  | writeStatus (value : Nat)
  /-- Write to the FIFO-write trigger select register. -/
  | writeFifoWrite (value : Nat)
  /-- Write to the FIFO-clear trigger select register. -/
  | writeFifoClear (value : Nat)
  /-- Write to the FIFO threshold register. -/
  | writeFifoThreshold (value : Nat)
  /-- Write to trigger-map entry `index`. -/
  | writeTrigger (index value : Nat)
  /-- The two-word destructive FIFO read; `high` is the word read first
  (lower offset), `low` the word read second. -/
  | destructiveReadFifo (high low : Nat)
deriving DecidableEq, Repr

/-- Whether an event is a register write (destructive reads are not). -/
def Event.isWrite : Event → Bool
  | .writeControl _ => true
  | .writeStatus _ => true
  | .writeFifoWrite _ => true
  | .writeFifoClear _ => true
  | .writeFifoThreshold _ => true
  | .writeTrigger _ _ => true
  | _ => false

/-- Whether an event is a write to the status register. -/
def Event.isStatusWrite : Event → Bool
  | .writeStatus _ => true
  | _ => false

/-- Whether an event is the destructive FIFO read. -/
def Event.isDestructive : Event → Bool
  | .destructiveReadFifo _ _ => true
  | _ => false

/-- The two kinds of C++ exception the driver throws. -/
inductive Err where
  /-- `std::logic_error` — a programming/configuration error. -/
  | logicError (msg : String)
  /-- `std::runtime_error`. -/
  | runtimeError (msg : String)
deriving DecidableEq, Repr

/-- The registers of the IP-UCD reachable from the modelled methods, plus
the PROM identity bytes and the FIFO contents.  `trigger` is the 256-entry
trigger map in A32 space (each entry a `uint16_t`); `fifo` is the queue of
(high word, low word) pairs the hardware would deliver on successive
destructive reads. -/
structure HWState where
  control : Nat
  status : Nat
  fifoWrite : Nat
  fifoClear : Nat
  fifoThreshold : Nat
  trigger : List Nat
  fifo : List (Nat × Nat)
  promIdHigh : Nat
  promIdLow : Nat
deriving DecidableEq, Repr

/-- `HW::getModuleId`: reads the PROM bytes at `0x89` (high) and `0x8b`
(low) and returns `(uint16_t) high << 8 + (uint16_t) low`.  Each PROM read
delivers a `uint8_t`. -/
def getModuleId (s : HWState) : Nat × List Event :=
  let hi := s.promIdHigh % 2 ^ 8
  let lo := s.promIdLow % 2 ^ 8
  ((hi <<< 8) + lo, [.readProm 0x89 hi, .readProm 0x8b lo])

/-- `HW::setFifoThreshold`: the `level` argument is a `uint8_t`; a zero
level is a `std::logic_error` thrown before any write, otherwise `level`
is written to the (16-bit) FIFO threshold register. -/
def setFifoThreshold (s : HWState) (level0 : Nat) :
    List Event × Except Err HWState :=
  let level := level0 % 2 ^ 8
  if level > 0 then
    ([.writeFifoThreshold (level % 2 ^ 16)],
     .ok { s with fifoThreshold := level % 2 ^ 16 })
  else
    ([], .error (.logicError "illegal FIFO threshold value"))

/-- `HW::adjustTclkReception`: `event` and `trigBit` are `uint8_t`
arguments; `trigBit > 7` is a `std::logic_error` thrown before any
access.  Otherwise the trigger-map entry for `event` is read, bit
`trigBit` is set (`enable`) or cleared (`!enable`), and the entry is
written back.  (`setupInterrupt` has an empty body and is omitted.) -/
def adjustTclkReception (s : HWState) (enable : Bool) (event0 trigBit0 : Nat) :
    List Event × Except Err HWState :=
  let event := event0 % 2 ^ 8
  let trigBit := trigBit0 % 2 ^ 8
  if trigBit > 7 then
    ([], .error (.logicError "illegal trigger bit value"))
  else
    let mask := (1 <<< trigBit) % 2 ^ 8
    let prev := (s.trigger.getD event 0) % 2 ^ 16
    let value := if enable then prev ||| mask else prev &&& (2 ^ 16 - 1 - mask)
    ([.readTrigger event prev, .writeTrigger event (value % 2 ^ 16)],
     .ok { s with trigger := s.trigger.set event (value % 2 ^ 16) })

/-- `HW::setResetFifoTimestampTrigger`: `trigBit` is a `uint8_t`; values
outside `[1,7]` are a `std::logic_error` thrown before any write;
otherwise `trigBit + 1` is written to the (8-bit) FIFO-clear trigger
select register. -/
def setResetFifoTimestampTrigger (s : HWState) (trigBit0 : Nat) :
    List Event × Except Err HWState :=
  let trigBit := trigBit0 % 2 ^ 8
  if trigBit < 1 ∨ trigBit > 7 then
    ([], .error (.logicError "illegal trigger bit value"))
  else
    ([.writeFifoClear ((trigBit + 1) % 2 ^ 8)],
     .ok { s with fifoClear := (trigBit + 1) % 2 ^ 8 })

/-- `HW::setWriteFifoTrigger`: same shape as
`setResetFifoTimestampTrigger`, writing to the FIFO-write trigger select
register. -/
def setWriteFifoTrigger (s : HWState) (trigBit0 : Nat) :
    List Event × Except Err HWState :=
  let trigBit := trigBit0 % 2 ^ 8
  if trigBit < 1 ∨ trigBit > 7 then
    ([], .error (.logicError "illegal trigger bit value"))
  else
    ([.writeFifoWrite ((trigBit + 1) % 2 ^ 8)],
     .ok { s with fifoWrite := (trigBit + 1) % 2 ^ 8 })

/-- `HW::getStatus`: reads the 16-bit status register, writes the value
read straight back, and returns it. -/
def getStatus (s : HWState) : Nat × HWState × List Event :=
  let temp := s.status % 2 ^ 16
  (temp, { s with status := temp },
   [.readStatus temp, .writeStatus temp])

/-- `Register<A32, FifoEntry, Offset, R, NoWrite>::read`: two adjacent
16-bit destructive reads, the lower-addressed (first) word becoming the
high half: `FifoEntry((tmp << 16) | low)`.  The pair the hardware
delivers is popped from the modelled queue; on an exhausted queue the
model returns zero words. -/
def readFifoReg (s : HWState) : FifoEntry × HWState × List Event :=
  match s.fifo with
  | (hi, lo) :: rest =>
      let tmp := hi % 2 ^ 16
      let low := lo % 2 ^ 16
      (FifoEntry.ofWord ((tmp <<< 16) ||| low), { s with fifo := rest },
       [.destructiveReadFifo tmp low])
  | [] => (FifoEntry.ofWord 0, s, [.destructiveReadFifo 0 0])

/-- `HW::readFifo`: reads the status register; if the `FIFOEmpty` bit is
clear the destructive FIFO read is performed, otherwise a default
(`invalid`) `FifoEntry` is returned with no further access. -/
def readFifo (s : HWState) : FifoEntry × HWState × List Event :=
  let st := s.status % 2 ^ 16
  if st &&& FIFOEmpty = 0 then
    let r := readFifoReg s
    (r.1, r.2.1, .readStatus st :: r.2.2)
  else
    (FifoEntry.noValue, s, [.readStatus st])

/-- The body of the constructor's trigger-clearing loop
(`for ii in 0..255: trigger[ii] := 0`), over an explicit index list. -/
def clearTriggerLoop : HWState → List Nat → HWState × List Event
  | s, [] => (s, [])
  | s, ii :: rest =>
      let s1 : HWState := { s with trigger := s.trigger.set ii 0 }
      let r := clearTriggerLoop s1 rest
      (r.1, .writeTrigger ii 0 :: r.2)

/-- `HW::HW`: checks the module identity against `0xbb15` (throwing a
`std::runtime_error` before any write on mismatch), then performs, in
order, the software reset, the zeroing of the two trigger-select
registers, the 256 trigger-map zeroing writes, and the enable-TCLK
write. -/
def constructHW (s : HWState) : List Event × Except Err HWState :=
  let mid := getModuleId s
  if mid.1 ≠ MODULE_ID then
    (mid.2, .error (.runtimeError "IP-UCD not found at A16 offset"))
  else
    let s1 : HWState := { s with control := SW_Reset % 2 ^ 16 }
    let s2 : HWState := { s1 with fifoWrite := 0 }
    let s3 : HWState := { s2 with fifoClear := 0 }
    let r := clearTriggerLoop s3 (List.range 256)
    let s5 : HWState := { r.1 with control := EnableTCLK % 2 ^ 16 }
    (mid.2 ++
       [.writeControl (SW_Reset % 2 ^ 16), .writeFifoWrite 0, .writeFifoClear 0] ++
       r.2 ++ [.writeControl (EnableTCLK % 2 ^ 16)],
     .ok s5)

/-- The state an operation leaves behind: the new state on success, the
default `d` (the untouched pre-state) on a throw. -/
def okState (r : List Event × Except Err HWState) (d : HWState) : HWState :=
  match r.2 with
  | .ok s => s
  | .error _ => d

/-- `adjustTclkReception` run for its state effect: the post-state on
success, the untouched pre-state on a throw. -/
def adjustRun (s : HWState) (enable : Bool) (E B : Nat) : HWState :=
  okState (adjustTclkReception s enable E B) s

/-- A concrete hardware state with a matching PROM identity, a full-size
trigger map and one queued FIFO pair, used to instantiate theorems. -/
def sampleState : HWState :=
  { control := 0, status := 0, fifoWrite := 0, fifoClear := 0,
    fifoThreshold := 0, trigger := List.replicate 256 0,
    fifo := [(0x1234, 0x5678)], promIdHigh := 0xbb, promIdLow := 0x15 }

/-- A concrete hardware state whose trigger-map entry 0 already has bit 0
set, exhibiting the non-restoring disable-after-enable behaviour. -/
def ceState : HWState :=
  { control := 0, status := 0, fifoWrite := 0, fifoClear := 0,
    fifoThreshold := 0, trigger := List.replicate 256 1,
    fifo := [], promIdHigh := 0xbb, promIdLow := 0x15 }

/-! ## Theorems -/

/-- The `uint8_t` trigger mask `1 << trigBit` fits in 8 bits when
`trigBit ≤ 7`. -/
lemma shiftLeft_one_lt (B : Nat) (hB : B ≤ 7) : 1 <<< B < 2 ^ 8 := by
  rw [Nat.one_shiftLeft]
  exact Nat.pow_lt_pow_right (by norm_num) (by omega)

/-- Reading back an in-bounds trigger-map entry just written. -/
lemma getD_set_self_of_lt (l : List Nat) (i v : Nat) (h : i < l.length) :
    (l.set i v).getD i 0 = v := by
  simp [List.getD_eq_getElem?_getD, List.getElem?_set_self h]

/-- Setting a bit and then clearing it is the same as clearing it
directly: `(p | m) & ~m = p & ~m` for a single-bit 8-bit mask under a
16-bit complement. -/
lemma or_and_not_mask (p B : Nat) (hB : B ≤ 7) :
    (p ||| 1 <<< B) &&& (2 ^ 16 - 1 - 1 <<< B)
      = p &&& (2 ^ 16 - 1 - 1 <<< B) := by
  have hc : (2 : Nat) ^ 16 - 1 - 1 <<< B = (2 ^ 16 - 1) ^^^ (1 <<< B) := by
    rw [Nat.one_shiftLeft]
    interval_cases B <;> decide
  rw [hc, Nat.one_shiftLeft]
  apply Nat.eq_of_testBit_eq
  intro i
  by_cases hiB : B = i
  · subst hiB
    have h16 : B < 16 := by omega
    have hfb : ((2 ^ 16 - 1 : Nat) ^^^ 2 ^ B).testBit B = false := by
      rw [Nat.testBit_xor, Nat.testBit_two_pow_sub_one,
        Nat.testBit_two_pow_self, decide_eq_true h16]
      rfl
    rw [Nat.testBit_and, Nat.testBit_and, hfb, Bool.and_false, Bool.and_false]
  · rw [Nat.testBit_and, Nat.testBit_and, Nat.testBit_or,
      Nat.testBit_two_pow_of_ne hiB, Bool.or_false]

/-- State effect of an in-range enable call. -/
lemma adjustRun_enable_eq (s : HWState) (E B : Nat)
    (hE : E < 256) (hB : B ≤ 7) :
    adjustRun s true E B =
      { s with trigger := (s.trigger.set E
          (((s.trigger.getD E 0 % 2 ^ 16) ||| 1 <<< B) % 2 ^ 16)) } := by
  have hEm : E % 2 ^ 8 = E := Nat.mod_eq_of_lt (by omega)
  have hBm : B % 2 ^ 8 = B := Nat.mod_eq_of_lt (by omega)
  have hmm : (1 <<< B) % 2 ^ 8 = 1 <<< B :=
    Nat.mod_eq_of_lt (shiftLeft_one_lt B hB)
  simp only [adjustRun, adjustTclkReception, hEm, hBm, hmm]
  rw [if_neg (by omega)]
  rfl

/-- State effect of an in-range disable call. -/
lemma adjustRun_disable_eq (s : HWState) (E B : Nat)
    (hE : E < 256) (hB : B ≤ 7) :
    adjustRun s false E B =
      { s with trigger := (s.trigger.set E
          (((s.trigger.getD E 0 % 2 ^ 16)
             &&& (2 ^ 16 - 1 - 1 <<< B)) % 2 ^ 16)) } := by
  have hEm : E % 2 ^ 8 = E := Nat.mod_eq_of_lt (by omega)
  have hBm : B % 2 ^ 8 = B := Nat.mod_eq_of_lt (by omega)
  have hmm : (1 <<< B) % 2 ^ 8 = 1 <<< B :=
    Nat.mod_eq_of_lt (shiftLeft_one_lt B hB)
  simp only [adjustRun, adjustTclkReception, hEm, hBm, hmm]
  rw [if_neg (by omega)]
  rfl

/-- The trace of the constructor's trigger-clearing loop. -/
lemma clearTriggerLoop_trace (s : HWState) (l : List Nat) :
    (clearTriggerLoop s l).2 = l.map fun ii => Event.writeTrigger ii 0 := by
  induction l generalizing s with
  | nil => rfl
  | cons a t ih => simp [clearTriggerLoop, ih]

/-- C3: for every 32-bit word `w ≠ 0xFFFFFFFF`, a `FifoEntry` constructed
from `w` is valid with `event() = w &&& 0xFF` and `stamp() = w >>> 8`; a
`FifoEntry` constructed from `0xFFFFFFFF`, or by the default constructor,
is invalid. -/
theorem fifoEntry_ctor_spec :
    (∀ w : Nat, w < 2 ^ 32 → w ≠ 0xffffffff →
       (FifoEntry.ofWord w).isValid = true ∧
       (FifoEntry.ofWord w).event = w &&& 0xff ∧
       (FifoEntry.ofWord w).stamp = w >>> 8) ∧
    (FifoEntry.ofWord 0xffffffff).isValid = false ∧
    FifoEntry.noValue.isValid = false := by
  refine ⟨?_, by decide, by decide⟩
  intro w hw hne
  have hmod : w % 2 ^ 32 = w := Nat.mod_eq_of_lt hw
  refine ⟨?_, ?_, ?_⟩
  · simp only [FifoEntry.ofWord, FifoEntry.isValid, NO_VALUE, hmod]
    simp [hne]
  · simp only [FifoEntry.ofWord, FifoEntry.event, hmod]
    rw [show (0xff : Nat) = 2 ^ 8 - 1 from rfl,
      Nat.and_pow_two_sub_one_eq_mod]
  · simp only [FifoEntry.ofWord, FifoEntry.stamp, hmod]

/-- Witness for C3 at the concrete word `0x102`. -/
theorem fifoEntry_ctor_spec_witness :
    (FifoEntry.ofWord 0x102).isValid = true ∧
    (FifoEntry.ofWord 0x102).event = 0x102 &&& 0xff ∧
    (FifoEntry.ofWord 0x102).stamp = 0x102 >>> 8 :=
  fifoEntry_ctor_spec.1 0x102 (by decide) (by decide)

/-- C10: the accessors are total on invalid entries: an entry built from
`0xFFFFFFFF` or by the default constructor has `event() = 0xFF` and
`stamp() = 0xFFFFFF`, with no error, while `isValid()` is `false`. -/
theorem fifoEntry_invalid_accessors_total :
    (FifoEntry.ofWord 0xffffffff).event = 0xff ∧
    (FifoEntry.ofWord 0xffffffff).stamp = 0xffffff ∧
    FifoEntry.noValue.event = 0xff ∧
    FifoEntry.noValue.stamp = 0xffffff ∧
    (FifoEntry.ofWord 0xffffffff).isValid = false ∧
    FifoEntry.noValue.isValid = false := by decide

/-- C4: `getStatus` performs exactly one status-register read followed by
exactly one status-register write of the very value read, and returns the
value read. -/
theorem getStatus_read_writeback_spec (s : HWState) :
    getStatus s =
      (s.status % 2 ^ 16, { s with status := s.status % 2 ^ 16 },
       [Event.readStatus (s.status % 2 ^ 16),
        Event.writeStatus (s.status % 2 ^ 16)]) := rfl

/-- C7: `setFifoThreshold 0` always throws the configuration error with no
register write; for `1 ≤ level ≤ 255` it writes exactly `level` to the
threshold register and raises no error. -/
theorem setFifoThreshold_spec :
    (∀ s : HWState, setFifoThreshold s 0 =
       ([], .error (Err.logicError "illegal FIFO threshold value"))) ∧
    (∀ (s : HWState) (level : Nat), 1 ≤ level → level ≤ 255 →
       setFifoThreshold s level =
         ([Event.writeFifoThreshold level],
          .ok { s with fifoThreshold := level })) := by
  constructor
  · intro s; rfl
  · intro s level h1 h255
    have hl : level % 2 ^ 8 = level := Nat.mod_eq_of_lt (by omega)
    have hl16 : level % 2 ^ 16 = level := Nat.mod_eq_of_lt (by omega)
    simp only [setFifoThreshold, hl, hl16]
    rw [if_pos (by omega)]

/-- Witness for C7 at level `5` on a concrete state. -/
theorem setFifoThreshold_spec_witness :
    setFifoThreshold sampleState 0 =
      ([], .error (Err.logicError "illegal FIFO threshold value")) ∧
    setFifoThreshold sampleState 5 =
      ([Event.writeFifoThreshold 5],
       .ok { sampleState with fifoThreshold := 5 }) :=
  ⟨setFifoThreshold_spec.1 sampleState,
   setFifoThreshold_spec.2 sampleState 5 (by decide) (by decide)⟩

/-- C8: for `trigBit ∈ [1,7]`, `setResetFifoTimestampTrigger` writes
exactly `trigBit + 1` to the FIFO-clear trigger select register and
`setWriteFifoTrigger` writes exactly `trigBit + 1` to the FIFO-write
trigger select register. -/
theorem triggerSelect_writes_spec (s : HWState) (t : Nat)
    (h1 : 1 ≤ t) (h7 : t ≤ 7) :
    setResetFifoTimestampTrigger s t =
      ([Event.writeFifoClear (t + 1)], .ok { s with fifoClear := t + 1 }) ∧
    setWriteFifoTrigger s t =
      ([Event.writeFifoWrite (t + 1)], .ok { s with fifoWrite := t + 1 }) := by
  have ht : t % 2 ^ 8 = t := Nat.mod_eq_of_lt (by omega)
  have ht1 : (t + 1) % 2 ^ 8 = t + 1 := Nat.mod_eq_of_lt (by omega)
  constructor
  · simp only [setResetFifoTimestampTrigger, ht, ht1]
    rw [if_neg (by omega)]
  · simp only [setWriteFifoTrigger, ht, ht1]
    rw [if_neg (by omega)]

/-- Witness for C8 at `trigBit = 3` on a concrete state. -/
theorem triggerSelect_writes_spec_witness :
    setResetFifoTimestampTrigger sampleState 3 =
      ([Event.writeFifoClear 4], .ok { sampleState with fifoClear := 4 }) ∧
    setWriteFifoTrigger sampleState 3 =
      ([Event.writeFifoWrite 4], .ok { sampleState with fifoWrite := 4 }) :=
  triggerSelect_writes_spec sampleState 3 (by decide) (by decide)

/-- C6: an out-of-range `trigBit` ( `> 7` for `adjustTclkReception`,
outside `[1,7]` for the two trigger-select setters) makes the operation
fail with the `std::logic_error` configuration error, with an empty event
trace — no register write occurs and the state is untouched. -/
theorem outOfRange_trigBit_no_write (t : Nat) (ht : t < 256) :
    (t > 7 →
      ∀ (s : HWState) (en : Bool) (ev : Nat),
        adjustTclkReception s en ev t =
          ([], .error (Err.logicError "illegal trigger bit value"))) ∧
    ((t < 1 ∨ t > 7) →
      ∀ s : HWState,
        setResetFifoTimestampTrigger s t =
          ([], .error (Err.logicError "illegal trigger bit value")) ∧
        setWriteFifoTrigger s t =
          ([], .error (Err.logicError "illegal trigger bit value"))) := by
  have hmod : t % 2 ^ 8 = t := Nat.mod_eq_of_lt ht
  constructor
  · intro h7 s en ev
    simp only [adjustTclkReception, hmod]
    rw [if_pos h7]
  · intro hr s
    constructor
    · simp only [setResetFifoTimestampTrigger, hmod]
      rw [if_pos hr]
    · simp only [setWriteFifoTrigger, hmod]
      rw [if_pos hr]

/-- C2: if the `FIFOEmpty` status bit is set, `readFifo` returns an
invalid `FifoEntry` and performs no destructive read; if it is clear,
`readFifo` performs exactly one destructive read (two 16-bit words) and
the returned entry stores the first-read (high) word shifted left 16
bits combined with the second (low) word. -/
theorem readFifo_spec (s : HWState) :
    ((s.status % 2 ^ 16) &&& FIFOEmpty ≠ 0 →
       readFifo s =
         (FifoEntry.noValue, s, [Event.readStatus (s.status % 2 ^ 16)]) ∧
       FifoEntry.noValue.isValid = false) ∧
    ((s.status % 2 ^ 16) &&& FIFOEmpty = 0 →
       ((readFifo s).2.2.countP fun e => e.isDestructive) = 1 ∧
       ∀ hi lo rest, s.fifo = (hi, lo) :: rest →
         readFifo s =
           (FifoEntry.ofWord (((hi % 2 ^ 16) <<< 16) ||| lo % 2 ^ 16),
            { s with fifo := rest },
            [Event.readStatus (s.status % 2 ^ 16),
             Event.destructiveReadFifo (hi % 2 ^ 16) (lo % 2 ^ 16)])) := by
  constructor
  · intro hne
    constructor
    · simp only [readFifo]
      rw [if_neg hne]
    · rfl
  · intro heq
    simp only [readFifo]
    rw [if_pos heq]
    constructor
    · rcases hf : s.fifo with _ | ⟨⟨hi, lo⟩, rest⟩ <;>
        simp [readFifoReg, hf, List.countP_cons, List.countP_nil,
          Event.isDestructive]
    · intro hi lo rest hfeq
      simp only [readFifoReg, hfeq]

/-- Witness for C2 on a concrete non-empty state, and on the same state
with the `FIFOEmpty` bit set. -/
theorem readFifo_spec_witness :
    ((readFifo sampleState).2.2.countP fun e => e.isDestructive) = 1 ∧
    readFifo sampleState =
      (FifoEntry.ofWord (((0x1234 % 2 ^ 16) <<< 16) ||| 0x5678 % 2 ^ 16),
       { sampleState with fifo := [] },
       [Event.readStatus (sampleState.status % 2 ^ 16),
        Event.destructiveReadFifo (0x1234 % 2 ^ 16) (0x5678 % 2 ^ 16)]) ∧
    readFifo { sampleState with status := 0x100 } =
      (FifoEntry.noValue, { sampleState with status := 0x100 },
       [Event.readStatus ({ sampleState with status := 0x100 }.status % 2 ^ 16)]) ∧
    FifoEntry.noValue.isValid = false :=
  ⟨((readFifo_spec sampleState).2 (by decide)).1,
   ((readFifo_spec sampleState).2 (by decide)).2 0x1234 0x5678 [] rfl,
   ((readFifo_spec { sampleState with status := 0x100 }).1 (by decide)).1,
   ((readFifo_spec { sampleState with status := 0x100 }).1 (by decide)).2⟩

/-- C9: `readFifo` performs no register write at all — in particular it
never writes the status register, so latched (sticky) status bits are
left unchanged by every call, on every status value. -/
theorem readFifo_no_status_write (s : HWState) :
    ((readFifo s).2.2.all fun e => !e.isStatusWrite) = true ∧
    ((readFifo s).2.2.all fun e => !e.isWrite) = true ∧
    (readFifo s).2.1.status = s.status := by
  simp only [readFifo]
  by_cases h : (s.status % 2 ^ 16) &&& FIFOEmpty = 0
  · rw [if_pos h]
    rcases hf : s.fifo with _ | ⟨⟨hi, lo⟩, rest⟩ <;>
      simp [readFifoReg, hf, Event.isWrite, Event.isStatusWrite]
  · rw [if_neg h]
    exact ⟨rfl, rfl, rfl⟩

/-- Witness for C6 at `trigBit = 9` on a concrete state. -/
theorem outOfRange_trigBit_no_write_witness :
    adjustTclkReception sampleState true 0 9 =
      ([], .error (Err.logicError "illegal trigger bit value")) ∧
    (setResetFifoTimestampTrigger sampleState 9 =
       ([], .error (Err.logicError "illegal trigger bit value")) ∧
     setWriteFifoTrigger sampleState 9 =
       ([], .error (Err.logicError "illegal trigger bit value"))) :=
  ⟨(outOfRange_trigBit_no_write 9 (by decide)).1 (by decide) sampleState true 0,
   (outOfRange_trigBit_no_write 9 (by decide)).2 (by decide) sampleState⟩

set_option maxRecDepth 8192 in
/-- C5 (counterexample to the claim as stated): on a trigger map whose
entry 0 already has bit 0 set, enable-then-disable for `(E,B) = (0,0)`
leaves bit 0 clear — it does not restore the pre-enable value. -/
theorem adjustTclk_restore_counterexample :
    (ceState.trigger.getD 0 0).testBit 0 = true ∧
    ((adjustRun (adjustRun ceState true 0 0) false 0 0).trigger.getD 0 0).testBit 0
      = false := by decide

/-- C5 (amended): enabling twice in a row for the same `(E,B)` yields the
same state as enabling once; disabling after enabling leaves the
trigger-map entry equal to its pre-enable value with bit `B` cleared — in
particular bit `B` ends clear, so the pre-enable value is restored exactly
when that bit was already clear. -/
theorem adjustTclk_idem_and_disable (s : HWState) (E B : Nat)
    (hE : E < 256) (hB : B ≤ 7) (hlen : s.trigger.length = 256)
    (hg : s.trigger.getD E 0 < 2 ^ 16) :
    adjustRun (adjustRun s true E B) true E B = adjustRun s true E B ∧
    (adjustRun (adjustRun s true E B) false E B).trigger.getD E 0
      = (s.trigger.getD E 0) &&& (2 ^ 16 - 1 - 1 <<< B) ∧
    ((adjustRun (adjustRun s true E B) false E B).trigger.getD E 0).testBit B
      = false := by
  have hm16 : 1 <<< B < 2 ^ 16 :=
    lt_of_lt_of_le (shiftLeft_one_lt B hB) (by norm_num)
  have hgm : s.trigger.getD E 0 % 2 ^ 16 = s.trigger.getD E 0 :=
    Nat.mod_eq_of_lt hg
  have hv : s.trigger.getD E 0 ||| 1 <<< B < 2 ^ 16 :=
    Nat.or_lt_two_pow hg hm16
  have h1 : adjustRun s true E B =
      { s with trigger := (s.trigger.set E (s.trigger.getD E 0 ||| 1 <<< B)) } := by
    rw [adjustRun_enable_eq s E B hE hB, hgm, Nat.mod_eq_of_lt hv]
  have hXg : ((s.trigger.set E (s.trigger.getD E 0 ||| 1 <<< B)).getD E 0)
      = s.trigger.getD E 0 ||| 1 <<< B :=
    getD_set_self_of_lt _ _ _ (by rw [hlen]; exact hE)
  refine ⟨?_, ?_, ?_⟩
  · rw [h1, adjustRun_enable_eq _ E B hE hB]
    show ({ s with trigger := _ } : HWState) = _
    rw [hXg, Nat.mod_eq_of_lt hv, Nat.or_assoc, Nat.or_self,
      Nat.mod_eq_of_lt hv, List.set_set]
  · rw [h1, adjustRun_disable_eq _ E B hE hB]
    show ((s.trigger.set E _).set E _).getD E 0 = _
    rw [hXg, Nat.mod_eq_of_lt hv, List.set_set,
      or_and_not_mask _ B hB]
    have hw : s.trigger.getD E 0 &&& (2 ^ 16 - 1 - 1 <<< B) < 2 ^ 16 :=
      Nat.and_lt_two_pow _ (Nat.lt_of_le_of_lt (Nat.sub_le _ _) (by norm_num))
    rw [Nat.mod_eq_of_lt hw]
    exact getD_set_self_of_lt _ _ _ (by rw [hlen]; exact hE)
  · rw [h1, adjustRun_disable_eq _ E B hE hB]
    show (((s.trigger.set E _).set E _).getD E 0).testBit B = _
    rw [hXg, Nat.mod_eq_of_lt hv, List.set_set, or_and_not_mask _ B hB]
    have hw : s.trigger.getD E 0 &&& (2 ^ 16 - 1 - 1 <<< B) < 2 ^ 16 :=
      Nat.and_lt_two_pow _ (Nat.lt_of_le_of_lt (Nat.sub_le _ _) (by norm_num))
    rw [Nat.mod_eq_of_lt hw,
      getD_set_self_of_lt _ _ _ (by rw [hlen]; exact hE)]
    have hc : (2 : Nat) ^ 16 - 1 - 1 <<< B = (2 ^ 16 - 1) ^^^ (1 <<< B) := by
      rw [Nat.one_shiftLeft]
      interval_cases B <;> decide
    have h16 : B < 16 := by omega
    rw [hc, Nat.testBit_and, Nat.testBit_xor, Nat.one_shiftLeft,
      Nat.testBit_two_pow_sub_one, Nat.testBit_two_pow_self,
      decide_eq_true h16]
    exact Bool.and_false _

set_option maxRecDepth 8192 in
/-- Witness for C5 at `(E,B) = (0,0)` on a concrete 256-entry state. -/
theorem adjustTclk_idem_and_disable_witness :
    adjustRun (adjustRun ceState true 0 0) true 0 0
      = adjustRun ceState true 0 0 ∧
    (adjustRun (adjustRun ceState true 0 0) false 0 0).trigger.getD 0 0
      = (ceState.trigger.getD 0 0) &&& (2 ^ 16 - 1 - 1 <<< 0) ∧
    ((adjustRun (adjustRun ceState true 0 0) false 0 0).trigger.getD 0 0).testBit 0
      = false :=
  adjustTclk_idem_and_disable ceState 0 0 (by decide) (by decide)
    (by decide) (by decide)

set_option maxRecDepth 8192 in
/-- C1: if the module identity read from the PROM differs from `0xbb15`,
construction fails with the runtime error after only the two PROM reads —
no register write occurs; if it matches, the transaction trace is exactly
the two PROM reads followed by the software-reset write to the control
register, the zeroing writes to the FIFO-write and FIFO-clear trigger
selects, the 256 zeroing trigger-map writes in order, and finally the
enable-TCLK write, and construction succeeds. -/
theorem constructHW_spec (s : HWState) :
    ((getModuleId s).1 ≠ MODULE_ID →
       constructHW s =
         ((getModuleId s).2,
          .error (Err.runtimeError "IP-UCD not found at A16 offset")) ∧
       ((getModuleId s).2.all fun e => !e.isWrite) = true) ∧
    ((getModuleId s).1 = MODULE_ID →
       (constructHW s).1 =
         [Event.readProm 0x89 (s.promIdHigh % 2 ^ 8),
          Event.readProm 0x8b (s.promIdLow % 2 ^ 8),
          Event.writeControl 0xff, Event.writeFifoWrite 0,
          Event.writeFifoClear 0]
         ++ ((List.range 256).map fun ii => Event.writeTrigger ii 0)
         ++ [Event.writeControl 0x1] ∧
       ∃ s5, (constructHW s).2 = Except.ok s5) := by
  constructor
  · intro hne
    constructor
    · simp only [constructHW]
      rw [if_pos hne]
    · simp [getModuleId, Event.isWrite]
  · intro heq
    constructor
    · simp only [constructHW]
      rw [if_neg (not_not_intro heq)]
      simp [getModuleId, clearTriggerLoop_trace, SW_Reset, EnableTCLK]
    · simp only [constructHW]
      rw [if_neg (not_not_intro heq)]
      exact ⟨_, rfl⟩

set_option maxRecDepth 8192 in
/-- Witness for C1 on a concrete state with the matching PROM identity. -/
theorem constructHW_spec_witness :
    (constructHW sampleState).1 =
      [Event.readProm 0x89 (sampleState.promIdHigh % 2 ^ 8),
       Event.readProm 0x8b (sampleState.promIdLow % 2 ^ 8),
       Event.writeControl 0xff, Event.writeFifoWrite 0,
       Event.writeFifoClear 0]
      ++ ((List.range 256).map fun ii => Event.writeTrigger ii 0)
      ++ [Event.writeControl 0x1] ∧
    ∃ s5, (constructHW sampleState).2 = Except.ok s5 :=
  (constructHW_spec sampleState).2 (by decide)

end IPUCD
